import Mathlib

/-!
Verification development for the ModelDeploy soil-classification HTTP service
(`app.py`).  The service decodes an uploaded or base64-encoded image,
preprocesses it for an InceptionV3 network, runs one forward pass and returns
the arg-max class with per-class probabilities.

Embedding conventions:
* numpy arrays are modelled as a shape together with a total indexing
  function (`NDArr`) — exactly the shape/strided-view semantics the code
  relies on; pixel and probability values are rationals.
* Calls into external libraries (PIL `Image.open`, `base64.b64decode`,
  PIL `Image.resize`, the Keras model's `predict`) are parameters of the
  embedded functions.  Their error classes follow the Python libraries:
  `base64.b64decode` failures raise `binascii.Error`, a subclass of
  `ValueError`; PIL `Image.open` failures raise `UnidentifiedImageError`,
  a subclass of `OSError` and NOT of `ValueError`.  `PyErr.valueError`
  marks exceptions caught by `except ValueError` in `predict`,
  `PyErr.otherError` all others (caught by the broad `except Exception`).
* The wall-clock `processing_time` field of the response is not modelled.
-/

namespace ModelDeploy

/-- A numpy ndarray: a shape and a total indexing function (values ℚ). -/
structure NDArr where
  shape : List Nat
  data : List Nat → ℚ

/-- `IMAGE_SIZE = (299, 299)` from app.py. -/
def IMAGE_SIZE : Nat × Nat := (299, 299)

/-- The fixed ordered 9-label class list `CLASS_NAMES` from app.py. -/
def CLASS_NAMES : List String :=
  ["alluvial", "black", "cinder", "clay", "laterite", "peat", "red", "sandy", "yellow"]

/-- A Python exception, classified by whether `except ValueError` catches it. -/
inductive PyErr where
  | valueError (msg : String)
  | otherError (msg : String)
deriving DecidableEq

/-- The message carried by an exception (`str(e)` in app.py). -/
def PyErr.msg : PyErr → String
  | .valueError m => m
  | .otherError m => m

/-- One part of a multipart upload: `file.filename` and the bytes of
`file.stream`. -/
structure FilePart where
  filename : String
  stream : List Nat
deriving DecidableEq

/-- An inbound Flask request, with the parts `decode_image_from_request`
inspects: `request.files`, `request.is_json` and the parsed JSON object
(string-valued fields, as the `image` field is). -/
structure Req where
  files : List (String × FilePart)
  is_json : Bool
  jsonData : List (String × String)
deriving DecidableEq

/-- Whether `sep` is an initial segment of `l` (Python substring matching). -/
def isPreL : List Char → List Char → Bool
  | [], _ => true
  | _ :: _, [] => false
  | a :: as, b :: bs => a == b && isPreL as bs

/-- Split at the first occurrence of `sep`: returns the part before it and
the part after it, `none` when `sep` does not occur (models the scan done by
Python's `in` test and `str.split`). -/
def splitFirst (sep : List Char) : List Char → Option (List Char × List Char)
  | [] => none
  | c :: cs =>
      if isPreL sep (c :: cs) then some ([], (c :: cs).drop sep.length)
      else
        match splitFirst sep cs with
        | some (pre, post) => some (c :: pre, post)
        | none => none

/-- The data-URL stripping step of `decode_image_from_request` (app.py
lines 173–175): `if 'base64,' in image_data: image_data =
image_data.split('base64,')[1]`.  Python's `split` cuts at every
occurrence, so element `[1]` is the segment between the first occurrence of
`'base64,'` and the next one (or the whole remainder when the occurrence is
unique). -/
def stripDataUrl (s : String) : String :=
  match splitFirst ("base64,".toList) s.toList with
  | none => s
  | some (_, rest) =>
      match splitFirst ("base64,".toList) rest with
      | none => String.mk rest
      | some (mid, _) => String.mk mid

/-- `decode_image_from_request` from app.py.  `openImage` models
`PIL.Image.open` on a byte stream (errors are `UnidentifiedImageError`,
not a `ValueError`); `b64decode` models `base64.b64decode` (errors are
`binascii.Error`, a `ValueError`).  A decoded PIL image is identified with
its pixel array. -/
def decode_image_from_request (openImage : List Nat → Except PyErr NDArr)
    (b64decode : String → Except PyErr (List Nat)) (req : Req) :
    Except PyErr NDArr :=
  match req.files.lookup "file" with
  | some file =>
      if file.filename = "" then .error (.valueError "No file selected")
      else openImage file.stream
  | none =>
      if req.is_json then
        match req.jsonData.lookup "image" with
        | some image_data =>
            match b64decode (stripDataUrl image_data) with
            | .ok image_bytes => openImage image_bytes
            | .error e => .error e
        | none => .error (.valueError "No 'image' field in JSON request")
      else
        .error (.valueError
          "Invalid request format. Use multipart/form-data or JSON with base64 image")

/-- `img_array[:, :, :3]` on a 3-dimensional array: the last axis is cut to
length (at most) 3, the underlying values are untouched.  In app.py this is
only reached on arrays of shape `[299, 299, 4]` (the guard tests
`shape[-1] == 4` and resizing fixed the first two axes to 299). -/
def truncTo3 (a : NDArr) : NDArr :=
  match a.shape with
  | [h, w, c] => { shape := [h, w, min c 3], data := a.data }
  | _ => a

/-- `np.expand_dims(a, axis=0)`: a leading batch axis of length 1. -/
def expandDims0 (a : NDArr) : NDArr :=
  { shape := 1 :: a.shape, data := fun idx => a.data idx.tail }

/-- `tf.keras.applications.inception_v3.preprocess_input`: the published
elementwise map `x ↦ x / 127.5 - 1` (an external contract of the model
family). -/
def inception_preprocess (a : NDArr) : NDArr :=
  { shape := a.shape, data := fun idx => a.data idx / 127.5 - 1 }

/-- `preprocess_image` from app.py.  `resize` models PIL's
`image.resize(IMAGE_SIZE)` (the decoded image and its `np.array` are
identified): resize, truncate a 4th channel if the last axis has length 4,
prepend a batch axis, apply the InceptionV3 preprocessing. -/
def preprocess_image (resize : NDArr → NDArr) (image : NDArr) : NDArr :=
  let image := resize image
  let img_array := image
  let img_array :=
    if img_array.shape.getLast? = some 4 then truncTo3 img_array else img_array
  let img_array := expandDims0 img_array
  inception_preprocess img_array

/-- First index of the maximum entry, `np.argmax` on a 1-D vector:
fold keeping the running best (index, value), replacing only on a strictly
greater value. -/
def argmaxAux : Nat × ℚ → Nat → List ℚ → Nat × ℚ
  | best, _, [] => best
  | best, i, x :: xs =>
      if best.2 < x then argmaxAux (i, x) (i + 1) xs else argmaxAux best (i + 1) xs

/-- `np.argmax` of a 1-D vector (0 on the empty vector, which in Python
raises instead and is handled separately in `predict`). -/
def np_argmax : List ℚ → Nat
  | [] => 0
  | x :: xs => (argmaxAux (0, x) 1 xs).1

/-- The probabilities dictionary
`{CLASS_NAMES[i]: float(predictions[0][i]) for i in range(len(CLASS_NAMES))}`:
an insertion-ordered map with the 9 distinct labels as keys, so an
association list pairing `CLASS_NAMES[i]` with `row[i]`; `none` when some
`row[i]` access would raise `IndexError` (row shorter than the label list). -/
def buildProbs (row : List ℚ) : Option (List (String × ℚ)) :=
  if CLASS_NAMES.length ≤ row.length then some (CLASS_NAMES.zip row) else none

/-- The `prediction` object of a successful response. -/
structure Prediction where
  className : String
  class_index : Nat
  confidence : ℚ
  probabilities : List (String × ℚ)
deriving DecidableEq

/-- A `/predict` response: HTTP status plus the JSON body fields. -/
structure Resp where
  status : Nat
  success : Bool
  error : Option String
  prediction : Option Prediction
deriving DecidableEq

/-- The `/predict` handler `predict` from app.py.  `model` is the
process-wide handle (`None` when loading failed); a loaded model maps the
preprocessed batch tensor to the batched output `predictions`
(list of rows).  The two `except` clauses map a `ValueError` to 400 with
the message verbatim and any other exception to 500 with an
`Internal server error: ` message; an empty `predictions` makes
`predictions[0]` raise `IndexError` (500) and an empty row makes
`np.argmax` raise a `ValueError` (400), while `CLASS_NAMES[predicted_index]`
or `predictions[0][i]` out of range raise `IndexError` (500). -/
def predict (model : Option (NDArr → List (List ℚ))) (resize : NDArr → NDArr)
    (openImage : List Nat → Except PyErr NDArr)
    (b64decode : String → Except PyErr (List Nat)) (req : Req) : Resp :=
  match model with
  | none =>
      { status := 503, success := false,
        error := some "Model not loaded. Please upload the model file to Railway.",
        prediction := none }
  | some m =>
      match decode_image_from_request openImage b64decode req with
      | .error (.valueError msg) =>
          { status := 400, success := false, error := some msg, prediction := none }
      | .error (.otherError msg) =>
          { status := 500, success := false,
            error := some ("Internal server error: " ++ msg), prediction := none }
      | .ok image =>
          let processed_image := preprocess_image resize image
          match m processed_image with
          | [] =>
              { status := 500, success := false,
                error := some
                  "Internal server error: index 0 is out of bounds for axis 0 with size 0",
                prediction := none }
          | row :: _ =>
              match row with
              | [] =>
                  { status := 400, success := false,
                    error := some "attempt to get argmax of an empty sequence",
                    prediction := none }
              | _ :: _ =>
                  match CLASS_NAMES[np_argmax row]?, row[np_argmax row]?,
                      buildProbs row with
                  | some predicted_class, some confidence, some probabilities =>
                      { status := 200, success := true, error := none,
                        prediction := some
                          { className := predicted_class,
                            class_index := np_argmax row,
                            confidence := confidence,
                            probabilities := probabilities } }
                  | _, _, _ =>
                      { status := 500, success := false,
                        error := some "Internal server error: list index out of range",
                        prediction := none }

/-- The `/health` response: HTTP status plus the JSON body fields
(`status` field of the body rendered as `body_status`). -/
structure HealthResp where
  status : Nat
  body_status : String
  model_loaded : Bool
  centroids_loaded : Bool
  num_classes : Nat
  message : String
deriving DecidableEq

/-- The `/health` handler from app.py: always returns HTTP 200; the body
reflects whether the model handle and the centroids artifact are present. -/
def health (model : Option (NDArr → List (List ℚ)))
    (class_centroids : Option (List (List ℚ))) : HealthResp :=
  { status := 200,
    body_status := if model.isSome then "healthy" else "model_not_loaded",
    model_loaded := model.isSome,
    centroids_loaded := class_centroids.isSome,
    num_classes := CLASS_NAMES.length,
    message :=
      if model.isSome then "Ready"
      else "Upload model file or set MODEL_URL environment variable" }



/-! Concrete fixtures: a stub model, image-opening and base64 functions and
requests, used to instantiate the theorems below on executable inputs. -/

/-- A model handle returning one fixed 9-entry output row. -/
def wModel : NDArr → List (List ℚ) := fun _ => [[0, 0, 1, 0, 0, 0, 0, 0, 0]]

/-- The output row produced by `wModel`. -/
def wRow : List ℚ := [0, 0, 1, 0, 0, 0, 0, 0, 0]

/-- A fixed decoded bitmap. -/
def wImg : NDArr := { shape := [1], data := fun _ => 0 }

/-- An image opener that decodes any byte stream to `wImg`. -/
def wOpen : List Nat → Except PyErr NDArr := fun _ => .ok wImg

/-- A base64 decoder that accepts any string. -/
def wB64 : String → Except PyErr (List Nat) := fun _ => .ok [0]

/-- A JSON request with a plain base64 `image` field. -/
def wReqJson : Req := { files := [], is_json := true, jsonData := [("image", "AA==")] }

/-- A JSON request whose `image` field carries a data-URL prefix. -/
def wReqData : Req :=
  { files := [], is_json := true,
    jsonData := [("image", "data:image/png;base64,AA==")] }

/-- An uploaded file part with a nonempty filename. -/
def wFile : FilePart := { filename := "soil.jpg", stream := [9, 9] }

/-- A request carrying both a multipart `file` part and a JSON `image`
field. -/
def wReqBoth : Req :=
  { files := [("file", wFile)], is_json := true, jsonData := [("image", "AA==")] }

/-- A multipart request whose file part has an empty filename. -/
def wReqEmptyFn : Req :=
  { files := [("file", { filename := "", stream := [3] })], is_json := false,
    jsonData := [] }

/-- A resized RGB bitmap of shape 299 × 299 × 3. -/
def wRGB : NDArr := { shape := [299, 299, 3], data := fun _ => 0 }

/-- The prediction object `predict` assembles from `wRow`. -/
def wPred : Prediction :=
  { className := "cinder", class_index := 2, confidence := 1,
    probabilities := CLASS_NAMES.zip wRow }

theorem argmaxAux_fst_lt (xs : List ℚ) (b : Nat × ℚ) (i : Nat) (h : b.1 < i) :
    (argmaxAux b i xs).1 < i + xs.length := by
  induction xs generalizing b i with
  | nil => simpa [argmaxAux] using h
  | cons x xs ih =>
      simp only [argmaxAux]
      by_cases hx : b.2 < x
      · simp only [hx, if_true]
        have := ih (i, x) (i + 1) (Nat.lt_succ_self i)
        simp only [List.length_cons]
        omega
      · simp only [hx, if_false]
        have := ih b (i + 1) (Nat.lt_succ_of_lt h)
        simp only [List.length_cons]
        omega

theorem argmaxAux_snd_le (xs : List ℚ) (b : Nat × ℚ) (i : Nat) :
    b.2 ≤ (argmaxAux b i xs).2 := by
  induction xs generalizing b i with
  | nil => simp [argmaxAux]
  | cons x xs ih =>
      simp only [argmaxAux]
      by_cases hx : b.2 < x
      · simp only [hx, if_true]
        exact le_of_lt (lt_of_lt_of_le hx (ih (i, x) (i + 1)))
      · simp only [hx, if_false]
        exact ih b (i + 1)

theorem argmaxAux_cases (xs : List ℚ) (b : Nat × ℚ) (i : Nat) :
    argmaxAux b i xs = b ∨
      ∃ j, xs[j]? = some (argmaxAux b i xs).2 ∧ (argmaxAux b i xs).1 = i + j := by
  induction xs generalizing b i with
  | nil => exact Or.inl rfl
  | cons x xs ih =>
      simp only [argmaxAux]
      by_cases hx : b.2 < x
      · simp only [hx, if_true]
        rcases ih (i, x) (i + 1) with h | ⟨j, hj, hfst⟩
        · refine Or.inr ⟨0, ?_, ?_⟩
          · rw [h]
            simp
          · rw [h]
            simp
        · exact Or.inr ⟨j + 1, by simpa using hj, by omega⟩
      · simp only [hx, if_false]
        rcases ih b (i + 1) with h | ⟨j, hj, hfst⟩
        · exact Or.inl h
        · exact Or.inr ⟨j + 1, by simpa using hj, by omega⟩

theorem argmaxAux_ge (xs : List ℚ) (b : Nat × ℚ) (i j : Nat) (v : ℚ)
    (h : xs[j]? = some v) : v ≤ (argmaxAux b i xs).2 := by
  induction xs generalizing b i j with
  | nil => simp at h
  | cons x xs ih =>
      simp only [argmaxAux]
      by_cases hx : b.2 < x
      · simp only [hx, if_true]
        cases j with
        | zero =>
            simp only [List.getElem?_cons_zero, Option.some.injEq] at h
            rw [← h]
            exact argmaxAux_snd_le xs (i, x) (i + 1)
        | succ j =>
            simp only [List.getElem?_cons_succ] at h
            exact ih (i, x) (i + 1) j h
      · simp only [hx, if_false]
        cases j with
        | zero =>
            simp only [List.getElem?_cons_zero, Option.some.injEq] at h
            rw [← h]
            exact le_trans (not_lt.mp hx) (argmaxAux_snd_le xs b (i + 1))
        | succ j =>
            simp only [List.getElem?_cons_succ] at h
            exact ih b (i + 1) j h

theorem np_argmax_lt (l : List ℚ) (h : l ≠ []) : np_argmax l < l.length := by
  match l with
  | [] => exact absurd rfl h
  | x :: xs =>
      simp only [np_argmax, List.length_cons]
      have := argmaxAux_fst_lt xs (0, x) 1 Nat.zero_lt_one
      omega

theorem np_argmax_spec (l : List ℚ) (h : l ≠ []) :
    ∃ v, l[np_argmax l]? = some v ∧ ∀ (j : Nat) (w : ℚ), l[j]? = some w → w ≤ v := by
  match l with
  | [] => exact absurd rfl h
  | x :: xs =>
      simp only [np_argmax]
      rcases argmaxAux_cases xs (0, x) 1 with hb | ⟨j, hj, hfst⟩
      · have hv : (x :: xs)[(argmaxAux (0, x) 1 xs).1]? = some x := by
          rw [hb]
          simp
        refine ⟨x, hv, ?_⟩
        intro j w hw
        cases j with
        | zero =>
            simp only [List.getElem?_cons_zero, Option.some.injEq] at hw
            subst hw
            exact le_refl x
        | succ j =>
            simp only [List.getElem?_cons_succ] at hw
            have := argmaxAux_ge xs (0, x) 1 j w hw
            rw [hb] at this
            exact this
      · refine ⟨(argmaxAux (0, x) 1 xs).2, ?_, ?_⟩
        · rw [hfst, Nat.add_comm]
          simpa using hj
        · intro j w hw
          cases j with
          | zero =>
              simp only [List.getElem?_cons_zero, Option.some.injEq] at hw
              subst hw
              exact argmaxAux_snd_le xs (0, x) 1
          | succ j =>
              simp only [List.getElem?_cons_succ] at hw
              exact argmaxAux_ge xs (0, x) 1 j w hw




theorem getElem?_zip_eq (l1 : List String) (l2 : List ℚ) (i : Nat) (c : String) (v : ℚ)
    (h1 : l1[i]? = some c) (h2 : l2[i]? = some v) : (l1.zip l2)[i]? = some (c, v) := by
  induction l1 generalizing l2 i with
  | nil => simp at h1
  | cons a as ih =>
      cases l2 with
      | nil => simp at h2
      | cons b bs =>
          cases i with
          | zero =>
              simp only [List.getElem?_cons_zero, Option.some.injEq] at h1 h2
              simp [List.zip_cons_cons, h1, h2]
          | succ i =>
              simp only [List.getElem?_cons_succ] at h1 h2
              simpa [List.zip_cons_cons] using ih bs i h1 h2

theorem lookup_zip_of_nodup (l1 : List String) (l2 : List ℚ) (i : Nat) (c : String) (v : ℚ)
    (hn : l1.Nodup) (h1 : l1[i]? = some c) (h2 : l2[i]? = some v) :
    (l1.zip l2).lookup c = some v := by
  induction l1 generalizing l2 i with
  | nil => simp at h1
  | cons a as ih =>
      cases l2 with
      | nil => simp at h2
      | cons b bs =>
          obtain ⟨hna, hnas⟩ := List.nodup_cons.mp hn
          cases i with
          | zero =>
              simp only [List.getElem?_cons_zero, Option.some.injEq] at h1 h2
              simp [List.zip_cons_cons, List.lookup, h1, h2]
          | succ i =>
              simp only [List.getElem?_cons_succ] at h1 h2
              have hc : c ∈ as := by
                have h1g : as.get? i = some c := by
                  rw [List.get?_eq_getElem?]
                  exact h1
                exact List.get?_mem h1g
              have hne : (c == a) = false := by
                simp only [beq_eq_false_iff_ne, ne_eq]
                intro hca
                exact hna (hca ▸ hc)
              simp only [List.zip_cons_cons, List.lookup, hne]
              exact ih bs i hnas h1 h2

theorem indexOf_eq_of_getElem? (l : List String) (i : Nat) (c : String)
    (hn : l.Nodup) (h : l[i]? = some c) : l.indexOf c = i := by
  induction l generalizing i with
  | nil => simp at h
  | cons a as ih =>
      obtain ⟨hna, hnas⟩ := List.nodup_cons.mp hn
      cases i with
      | zero =>
          simp only [List.getElem?_cons_zero, Option.some.injEq] at h
          subst h
          simp [List.indexOf_cons_self]
      | succ i =>
          simp only [List.getElem?_cons_succ] at h
          have hc : c ∈ as := by
            have hg : as.get? i = some c := by
              rw [List.get?_eq_getElem?]
              exact h
            exact List.get?_mem hg
          have hne : a ≠ c := fun hca => hna (hca ▸ hc)
          rw [List.indexOf_cons_ne _ hne, ih i hnas h]




/-- Helper: under a successful decode, a model output whose first row has
exactly the label-list length, the `/predict` handler takes the success
branch and returns the 200 response assembled from that row. -/
theorem predict_success_eq (m : NDArr → List (List ℚ)) (resize : NDArr → NDArr)
    (openImage : List Nat → Except PyErr NDArr)
    (b64decode : String → Except PyErr (List Nat)) (req : Req)
    (img : NDArr) (row : List ℚ) (rest : List (List ℚ))
    (hdec : decode_image_from_request openImage b64decode req = .ok img)
    (hm : m (preprocess_image resize img) = row :: rest)
    (hlen : row.length = CLASS_NAMES.length) :
    ∃ conf cls,
      row[np_argmax row]? = some conf ∧
      CLASS_NAMES[np_argmax row]? = some cls ∧
      predict (some m) resize openImage b64decode req =
        { status := 200, success := true, error := none,
          prediction := some
            { className := cls, class_index := np_argmax row,
              confidence := conf, probabilities := CLASS_NAMES.zip row } } := by
  have hne : row ≠ [] := by
    intro hr
    rw [hr] at hlen
    simp [CLASS_NAMES] at hlen
  have hidx : np_argmax row < row.length := np_argmax_lt row hne
  have hidx2 : np_argmax row < CLASS_NAMES.length := hlen ▸ hidx
  have hconf := List.getElem?_eq_getElem hidx
  have hcls := List.getElem?_eq_getElem hidx2
  have hprobs : buildProbs row = some (CLASS_NAMES.zip row) := by
    simp [buildProbs, hlen]
  refine ⟨row[np_argmax row], CLASS_NAMES[np_argmax row], hconf, hcls, ?_⟩
  obtain ⟨r, rs, rfl⟩ : ∃ r rs, row = r :: rs := by
    cases row with
    | nil => exact absurd rfl hne
    | cons r rs => exact ⟨r, rs, rfl⟩
  simp only [predict]
  rw [hdec]
  simp only []
  rw [hm]
  simp only []
  rw [hcls, hconf, hprobs]





/-- **C1**: for every successful `/predict` response, `class_index` is the
arg-max index of the model's single output row (first maximal entry, and
every entry is ≤ the one at that index), `class` is the label of the fixed
9-label list at that index (so `class_index` is the index of `class` in the
label list), and `confidence` is the row's value at the arg-max index. -/
theorem predict_success_argmax_contract (m : NDArr → List (List ℚ))
    (resize : NDArr → NDArr) (openImage : List Nat → Except PyErr NDArr)
    (b64decode : String → Except PyErr (List Nat)) (req : Req)
    (img : NDArr) (row : List ℚ) (rest : List (List ℚ))
    (hdec : decode_image_from_request openImage b64decode req = .ok img)
    (hm : m (preprocess_image resize img) = row :: rest)
    (hlen : row.length = CLASS_NAMES.length) :
    ∃ conf cls,
      row[np_argmax row]? = some conf ∧
      CLASS_NAMES[np_argmax row]? = some cls ∧
      CLASS_NAMES.indexOf cls = np_argmax row ∧
      (∀ (j : Nat) (w : ℚ), row[j]? = some w → w ≤ conf) ∧
      predict (some m) resize openImage b64decode req =
        { status := 200, success := true, error := none,
          prediction := some
            { className := cls, class_index := np_argmax row,
              confidence := conf, probabilities := CLASS_NAMES.zip row } } := by
  obtain ⟨conf, cls, hconf, hcls, heq⟩ :=
    predict_success_eq m resize openImage b64decode req img row rest hdec hm hlen
  have hne : row ≠ [] := by
    intro hr
    rw [hr] at hlen
    simp [CLASS_NAMES] at hlen
  have hnodup : CLASS_NAMES.Nodup := by decide
  obtain ⟨v, hv, hmax⟩ := np_argmax_spec row hne
  have hvc : v = conf := by
    rw [hv] at hconf
    exact Option.some.inj hconf
  refine ⟨conf, cls, hconf, hcls,
    indexOf_eq_of_getElem? CLASS_NAMES (np_argmax row) cls hnodup hcls,
    fun j w hw => hvc ▸ hmax j w hw, heq⟩

/-- **C4**: for every successful `/predict` response, the `probabilities`
mapping has exactly the 9 fixed labels as keys (in order), is index-aligned
with the output row, its entry for `class` is `confidence`, and
`confidence` is the maximum value of the mapping. -/
theorem predict_success_probabilities_contract (m : NDArr → List (List ℚ))
    (resize : NDArr → NDArr) (openImage : List Nat → Except PyErr NDArr)
    (b64decode : String → Except PyErr (List Nat)) (req : Req)
    (img : NDArr) (row : List ℚ) (rest : List (List ℚ))
    (hdec : decode_image_from_request openImage b64decode req = .ok img)
    (hm : m (preprocess_image resize img) = row :: rest)
    (hlen : row.length = CLASS_NAMES.length) :
    ∃ p, (predict (some m) resize openImage b64decode req).prediction = some p ∧
      p.probabilities.map Prod.fst = CLASS_NAMES ∧
      (∀ (i : Nat) (c : String) (v : ℚ), CLASS_NAMES[i]? = some c →
        row[i]? = some v → p.probabilities[i]? = some (c, v)) ∧
      p.probabilities.lookup p.className = some p.confidence ∧
      (∀ q ∈ p.probabilities, q.2 ≤ p.confidence) := by
  obtain ⟨conf, cls, hconf, hcls, heq⟩ :=
    predict_success_eq m resize openImage b64decode req img row rest hdec hm hlen
  have hne : row ≠ [] := by
    intro hr
    rw [hr] at hlen
    simp [CLASS_NAMES] at hlen
  have hnodup : CLASS_NAMES.Nodup := by decide
  refine ⟨_, by rw [heq], ?_, ?_, ?_, ?_⟩
  · exact List.map_fst_zip CLASS_NAMES row (le_of_eq hlen.symm)
  · intro i c v h1 h2
    exact getElem?_zip_eq CLASS_NAMES row i c v h1 h2
  · exact lookup_zip_of_nodup CLASS_NAMES row (np_argmax row) cls conf hnodup hcls hconf
  · intro q hq
    obtain ⟨v, hv, hmax⟩ := np_argmax_spec row hne
    have hvc : v = conf := by
      rw [hv] at hconf
      exact Option.some.inj hconf
    obtain ⟨_, hmem⟩ := List.of_mem_zip hq
    obtain ⟨j, hj⟩ := List.get?_of_mem hmem
    rw [List.get?_eq_getElem?] at hj
    exact hvc ▸ hmax j q.2 hj




/-- **C2**: with the model handle absent, every `/predict` request is
answered 503 with `success: false` and the `Model not loaded` message.  The
response is one constant, for arbitrary decoder, base64, resize and request
arguments: no image decoding, preprocessing or inference is invoked. -/
theorem predict_model_absent (resize : NDArr → NDArr)
    (openImage : List Nat → Except PyErr NDArr)
    (b64decode : String → Except PyErr (List Nat)) (req : Req) :
    predict none resize openImage b64decode req =
      { status := 503, success := false,
        error := some "Model not loaded. Please upload the model file to Railway.",
        prediction := none } := rfl

/-- **C6**: `/health` answers HTTP 200 in every model-load state, and the
`model_loaded` flag of the body is `false` exactly when the model handle is
absent (load failed). -/
theorem health_contract (m : Option (NDArr → List (List ℚ)))
    (c : Option (List (List ℚ))) :
    (health m c).status = 200 ∧ ((health m c).model_loaded = false ↔ m = none) := by
  refine ⟨rfl, ?_⟩
  cases m <;> simp [health]

/-- **C10**: when a `file` part is present in the request, the decoder uses
only that branch — the result is the empty-filename check followed by
opening the uploaded bytes, regardless of the JSON body. -/
theorem decode_file_branch_precedence (openImage : List Nat → Except PyErr NDArr)
    (b64decode : String → Except PyErr (List Nat)) (req : Req) (f : FilePart)
    (h : req.files.lookup "file" = some f) :
    decode_image_from_request openImage b64decode req =
      if f.filename = "" then .error (.valueError "No file selected")
      else openImage f.stream := by
  simp only [decode_image_from_request, h]

/-- **C7**: two `/predict` requests carrying the same uploaded image bytes
(nonempty filenames, arbitrary and possibly different filenames and JSON
bodies) receive identical responses — the decode/preprocess/infer pipeline
is deterministic. -/
theorem predict_two_run_determinism (m : NDArr → List (List ℚ))
    (resize : NDArr → NDArr) (openImage : List Nat → Except PyErr NDArr)
    (b64decode : String → Except PyErr (List Nat))
    (fn1 fn2 : String) (bs : List Nat) (b1 b2 : Bool)
    (jd1 jd2 : List (String × String)) (h1 : fn1 ≠ "") (h2 : fn2 ≠ "") :
    predict (some m) resize openImage b64decode
        { files := [("file", ⟨fn1, bs⟩)], is_json := b1, jsonData := jd1 } =
      predict (some m) resize openImage b64decode
        { files := [("file", ⟨fn2, bs⟩)], is_json := b2, jsonData := jd2 } := by
  have hd1 : decode_image_from_request openImage b64decode
      { files := [("file", ⟨fn1, bs⟩)], is_json := b1, jsonData := jd1 } =
      openImage bs := by
    simp [decode_image_from_request, List.lookup, h1]
  have hd2 : decode_image_from_request openImage b64decode
      { files := [("file", ⟨fn2, bs⟩)], is_json := b2, jsonData := jd2 } =
      openImage bs := by
    simp [decode_image_from_request, List.lookup, h2]
  simp only [predict]
  rw [hd1, hd2]





/-- **C8 amended**: while the model handle is present, a multipart request
whose `file` part has an empty filename is answered 400 with
`success: false` and the message `No file selected`. -/
theorem predict_empty_filename (m : NDArr → List (List ℚ)) (resize : NDArr → NDArr)
    (openImage : List Nat → Except PyErr NDArr)
    (b64decode : String → Except PyErr (List Nat)) (req : Req) (f : FilePart)
    (hf : req.files.lookup "file" = some f) (hfn : f.filename = "") :
    predict (some m) resize openImage b64decode req =
      { status := 400, success := false, error := some "No file selected",
        prediction := none } := by
  have hd : decode_image_from_request openImage b64decode req =
      .error (.valueError "No file selected") := by
    simp [decode_image_from_request, hf, hfn]
  simp only [predict]
  rw [hd]

/-- **C8 counterexample**: with the model handle absent, the same
empty-filename multipart request is answered 503 (the model guard precedes
the filename check), not 400 as the claim states for every such request. -/
theorem predict_empty_filename_model_absent_ce :
    predict none id (fun _ => .ok ⟨[1], fun _ => 0⟩) (fun _ => .ok [])
        { files := [("file", ⟨"", [7]⟩)], is_json := false, jsonData := [] } =
      { status := 503, success := false,
        error := some "Model not loaded. Please upload the model file to Railway.",
        prediction := none } ∧
    (predict none id (fun _ => .ok ⟨[1], fun _ => 0⟩) (fun _ => .ok [])
        { files := [("file", ⟨"", [7]⟩)], is_json := false, jsonData := [] }).status ≠ 400 :=
  ⟨rfl, by decide⟩

/-- **C3 amended**: while the model handle is present, for a JSON request
with an `image` field: a base64 decoding failure (`binascii.Error`, a
`ValueError`) yields 400 with the library's message passed through
verbatim — never 500; but if base64 decoding succeeds and the decoded bytes
are not a valid image, PIL raises `UnidentifiedImageError` (an `OSError`,
not a `ValueError`), which the broad handler maps to 500, not 400. -/
theorem predict_bad_payload_handling (m : NDArr → List (List ℚ))
    (resize : NDArr → NDArr) (openImage : List Nat → Except PyErr NDArr)
    (b64decode : String → Except PyErr (List Nat)) (req : Req) (s : String)
    (hf : req.files.lookup "file" = none) (hj : req.is_json = true)
    (hs : req.jsonData.lookup "image" = some s) :
    (∀ emsg, b64decode (stripDataUrl s) = .error (.valueError emsg) → emsg ≠ "" →
      predict (some m) resize openImage b64decode req =
        { status := 400, success := false, error := some emsg,
          prediction := none }) ∧
    (∀ bs omsg, b64decode (stripDataUrl s) = .ok bs →
      openImage bs = .error (.otherError omsg) →
      predict (some m) resize openImage b64decode req =
        { status := 500, success := false,
          error := some ("Internal server error: " ++ omsg),
          prediction := none }) := by
  constructor
  · intro emsg hb hne
    have hd : decode_image_from_request openImage b64decode req =
        .error (.valueError emsg) := by
      simp [decode_image_from_request, hf, hj, hs, hb]
    simp only [predict]
    rw [hd]
  · intro bs omsg hb ho
    have hd : decode_image_from_request openImage b64decode req =
        .error (.otherError omsg) := by
      simp [decode_image_from_request, hf, hj, hs, hb, ho]
    simp only [predict]
    rw [hd]

/-- **C3 counterexample**: a JSON payload whose string is valid base64 but
whose decoded bytes are not an image: `PIL.Image.open` raises
`UnidentifiedImageError`, a subclass of `OSError` and not of `ValueError`,
so the handler's broad `except Exception` answers 500 — refuting
"HTTP 400 … and never HTTP 500" for such payloads. -/
theorem predict_unidentified_image_500_ce :
    predict (some fun _ => [[1]]) id
        (fun _ => .error (.otherError "cannot identify image file <_io.BytesIO object>"))
        (fun _ => .ok [0, 1, 2])
        { files := [], is_json := true, jsonData := [("image", "AAEC")] } =
      { status := 500, success := false,
        error := some
          "Internal server error: cannot identify image file <_io.BytesIO object>",
        prediction := none } ∧
    (predict (some fun _ => [[1]]) id
        (fun _ => .error (.otherError "cannot identify image file <_io.BytesIO object>"))
        (fun _ => .ok [0, 1, 2])
        { files := [], is_json := true, jsonData := [("image", "AAEC")] }).status ≠ 400 :=
  ⟨rfl, by decide⟩





/-- **C5 amended**: for every bitmap whose resized pixel array has 3 or 4
channels, the preprocessor returns a batch-of-1 tensor of shape
`(1, 299, 299, 3)`; a 4th (alpha) channel is truncated away without
blending: each output value at `[0, i, j, k]`, `k < 3`, is the InceptionV3
rescaling of the resized array's own value at `[i, j, k]`. -/
theorem preprocess_image_shape (resize : NDArr → NDArr) (image : NDArr) (c : Nat)
    (hc : c = 3 ∨ c = 4) (h : (resize image).shape = [299, 299, c]) :
    (preprocess_image resize image).shape = [1, 299, 299, 3] ∧
    ∀ (i j k : Nat), k < 3 →
      (preprocess_image resize image).data [0, i, j, k] =
        (resize image).data [i, j, k] / 127.5 - 1 := by
  rcases hc with rfl | rfl
  · refine ⟨?_, ?_⟩
    · simp [preprocess_image, h, expandDims0, inception_preprocess]
    · intro i j k hk
      simp [preprocess_image, h, expandDims0, inception_preprocess]
  · refine ⟨?_, ?_⟩
    · simp [preprocess_image, h, truncTo3, expandDims0, inception_preprocess]
    · intro i j k hk
      simp [preprocess_image, h, truncTo3, expandDims0, inception_preprocess]

/-- **C5 counterexample**: a single-channel (grayscale) bitmap: its pixel
array is 2-dimensional, so after resizing, batch expansion and rescaling
the output shape is `(1, 299, 299)`, not the claimed `(1, 299, 299, 3)`. -/
theorem preprocess_gray_ce :
    (preprocess_image id { shape := [299, 299], data := fun _ => 0 }).shape =
      [1, 299, 299] ∧
    ([1, 299, 299] : List Nat) ≠ [1, 299, 299, 3] :=
  ⟨rfl, by decide⟩





theorem isPreL_append (p l : List Char) (h : isPreL p l = true) :
    l = p ++ l.drop p.length := by
  induction p generalizing l with
  | nil => simp
  | cons a as ih =>
      cases l with
      | nil => simp [isPreL] at h
      | cons b bs =>
          simp only [isPreL, Bool.and_eq_true, beq_iff_eq] at h
          obtain ⟨rfl, hpre⟩ := h
          simpa using ih bs hpre

theorem splitFirst_eq (sep l pre post : List Char)
    (h : splitFirst sep l = some (pre, post)) : l = pre ++ sep ++ post := by
  induction l generalizing pre with
  | nil => simp [splitFirst] at h
  | cons c cs ih =>
      rw [splitFirst] at h
      by_cases hp : isPreL sep (c :: cs) = true
      · rw [if_pos hp] at h
        simp only [Option.some.injEq, Prod.mk.injEq] at h
        obtain ⟨rfl, rfl⟩ := h
        simpa using isPreL_append sep (c :: cs) hp
      · rw [if_neg hp] at h
        cases hsp : splitFirst sep cs with
        | none => rw [hsp] at h; simp at h
        | some pq =>
            rw [hsp] at h
            obtain ⟨p, q⟩ := pq
            simp only [Option.some.injEq, Prod.mk.injEq] at h
            obtain ⟨rfl, rfl⟩ : pre = c :: p ∧ q = post := ⟨h.1.symm, h.2⟩
            have := ih p hsp
            simp [this]





/-- **C9 amended**: for a JSON request with `image` field `s`, the decoder
base64-decodes exactly `stripDataUrl s` and opens the result.  Without the
substring `'base64,'` the whole string is decoded unchanged.  When
`'base64,'` occurs, `s` splits as `pre ++ "base64," ++ post` at the first
occurrence, and the decoded portion is `post` provided `'base64,'` does not
occur again in `post`; with a further occurrence, Python's
`split('base64,')[1]` keeps only the segment before it (see the
counterexample). -/
theorem decode_json_b64_portion (openImage : List Nat → Except PyErr NDArr)
    (b64decode : String → Except PyErr (List Nat)) (req : Req) (s : String)
    (hf : req.files.lookup "file" = none) (hj : req.is_json = true)
    (hs : req.jsonData.lookup "image" = some s) :
    (decode_image_from_request openImage b64decode req =
      match b64decode (stripDataUrl s) with
      | .ok image_bytes => openImage image_bytes
      | .error e => .error e) ∧
    (splitFirst ("base64,".toList) s.toList = none → stripDataUrl s = s) ∧
    (∀ pre post, splitFirst ("base64,".toList) s.toList = some (pre, post) →
      s.toList = pre ++ "base64,".toList ++ post ∧
      (splitFirst ("base64,".toList) post = none →
        stripDataUrl s = String.mk post)) := by
  refine ⟨?_, ?_, ?_⟩
  · simp [decode_image_from_request, hf, hj, hs]
  · intro h
    unfold stripDataUrl
    rw [h]
  · intro pre post h
    refine ⟨splitFirst_eq _ _ _ _ h, fun h2 => ?_⟩
    unfold stripDataUrl
    simp only [h, h2]

/-- **C9 counterexample**: an `image` field in which `'base64,'` occurs
twice: `"data:;base64,QUJDbase64,REVG"`.  The claim says everything after
the (first) prefix, `"QUJDbase64,REVG"`, is decoded; the code's
`split('base64,')[1]` decodes only `"QUJD"`.  The base64 parameter is
instantiated as a recorder that returns its argument as an error message,
so the response pinpoints the string actually decoded. -/
theorem decode_json_b64_portion_ce :
    stripDataUrl "data:;base64,QUJDbase64,REVG" = "QUJD" ∧
    ("QUJD" : String) ≠ "QUJDbase64,REVG" ∧
    decode_image_from_request (fun bs => .error (.otherError (toString bs.length)))
        (fun t => .error (.valueError t))
        { files := [], is_json := true,
          jsonData := [("image", "data:;base64,QUJDbase64,REVG")] } =
      .error (.valueError "QUJD") :=
  ⟨rfl, by decide, rfl⟩




/-- Witness for C1: the contract evaluated on the fixture pipeline — the
arg-max of `wRow` is index 2, label `cinder`, confidence 1. -/
theorem predict_success_argmax_contract_witness :
    predict (some wModel) id wOpen wB64 wReqJson =
      { status := 200, success := true, error := none,
        prediction := some
          { className := "cinder", class_index := 2, confidence := 1,
            probabilities := CLASS_NAMES.zip wRow } } := by
  obtain ⟨conf, cls, hconf, hcls, _hio, _hmax, heq⟩ :=
    predict_success_argmax_contract wModel id wOpen wB64 wReqJson wImg wRow [] rfl rfl rfl
  have h1 : some (1 : ℚ) = some conf := hconf
  have h2 : some "cinder" = some cls := hcls
  obtain rfl := Option.some.inj h1
  obtain rfl := Option.some.inj h2
  rw [heq]
  rfl

/-- Witness for C4: the probabilities mapping on the fixture pipeline. -/
theorem predict_success_probabilities_contract_witness :
    (predict (some wModel) id wOpen wB64 wReqJson).prediction = some wPred ∧
    wPred.probabilities.map Prod.fst = CLASS_NAMES ∧
    wPred.probabilities.lookup wPred.className = some wPred.confidence ∧
    wPred.probabilities[2]? = some ("cinder", 1) := by
  obtain ⟨p, hp, hkeys, halign, hlookup, _hmax⟩ :=
    predict_success_probabilities_contract wModel id wOpen wB64 wReqJson wImg wRow []
      rfl rfl rfl
  have hpe : some wPred = some p := hp
  obtain rfl := Option.some.inj hpe
  exact ⟨hp, hkeys, hlookup, halign 2 "cinder" 1 rfl rfl⟩





/-- Witness for C10: on a request carrying both a file part and a JSON
`image` field, the decoder takes the file branch. -/
theorem decode_file_branch_precedence_witness :
    decode_image_from_request wOpen wB64 wReqBoth =
      if wFile.filename = "" then .error (.valueError "No file selected")
      else wOpen wFile.stream :=
  decode_file_branch_precedence wOpen wB64 wReqBoth wFile rfl

/-- Witness for C7: the same uploaded bytes under two different filenames
and JSON bodies produce the same response. -/
theorem predict_two_run_determinism_witness :
    predict (some wModel) id wOpen wB64
        { files := [("file", ⟨"a.jpg", [5]⟩)], is_json := false, jsonData := [] } =
      predict (some wModel) id wOpen wB64
        { files := [("file", ⟨"b.jpg", [5]⟩)], is_json := true,
          jsonData := [("image", "AA==")] } :=
  predict_two_run_determinism wModel id wOpen wB64 "a.jpg" "b.jpg" [5] false true
    [] [("image", "AA==")] (by decide) (by decide)

/-- Witness for amended C8: with the model present, the empty-filename
upload is answered 400 `No file selected`. -/
theorem predict_empty_filename_witness :
    predict (some wModel) id wOpen wB64 wReqEmptyFn =
      { status := 400, success := false, error := some "No file selected",
        prediction := none } :=
  predict_empty_filename wModel id wOpen wB64 wReqEmptyFn
    { filename := "", stream := [3] } rfl rfl

/-- Witness for amended C3: a failing base64 decode gives 400 with the
library message; a successful decode of non-image bytes gives 500. -/
theorem predict_bad_payload_handling_witness :
    predict (some wModel) id wOpen
        (fun _ => .error (.valueError "Invalid base64-encoded string")) wReqJson =
      { status := 400, success := false,
        error := some "Invalid base64-encoded string", prediction := none } ∧
    predict (some wModel) id
        (fun _ => .error (.otherError "cannot identify image file"))
        (fun _ => .ok [2]) wReqJson =
      { status := 500, success := false,
        error := some ("Internal server error: " ++ "cannot identify image file"),
        prediction := none } :=
  ⟨(predict_bad_payload_handling wModel id wOpen
      (fun _ => .error (.valueError "Invalid base64-encoded string")) wReqJson
      "AA==" rfl rfl rfl).1 "Invalid base64-encoded string" rfl (by decide),
   (predict_bad_payload_handling wModel id
      (fun _ => .error (.otherError "cannot identify image file"))
      (fun _ => .ok [2]) wReqJson "AA==" rfl rfl rfl).2 [2]
      "cannot identify image file" rfl rfl⟩

/-- Witness for amended C5: a 299 × 299 × 3 resize output yields the fixed
batch-of-1 shape and rescaled values. -/
theorem preprocess_image_shape_witness :
    (preprocess_image (fun _ => wRGB) wImg).shape = [1, 299, 299, 3] ∧
    (preprocess_image (fun _ => wRGB) wImg).data [0, 0, 0, 0] = 0 / 127.5 - 1 := by
  have h := preprocess_image_shape (fun _ => wRGB) wImg 3 (Or.inl rfl) rfl
  exact ⟨h.1, h.2 0 0 0 (by decide)⟩

/-- Witness for amended C9: a data-URL payload with a unique `'base64,'`
splits at it and exactly the remainder `AA==` is passed to base64
decoding. -/
theorem decode_json_b64_portion_witness :
    (decode_image_from_request wOpen wB64 wReqData =
      match wB64 (stripDataUrl "data:image/png;base64,AA==") with
      | .ok image_bytes => wOpen image_bytes
      | .error e => .error e) ∧
    stripDataUrl "data:image/png;base64,AA==" = String.mk ['A', 'A', '=', '='] := by
  have h := decode_json_b64_portion wOpen wB64 wReqData "data:image/png;base64,AA=="
    rfl rfl rfl
  exact ⟨h.1, (h.2.2 ("data:image/png;".toList) ("AA==".toList) rfl).2 rfl⟩

end ModelDeploy
